import Mathlib

/-!
Shallow embedding of the Chromium Pong game (resources/dino_game):
ball.ts, paddle.ts, score_display.ts, constants.ts and the game-state
logic of offline.ts (PongGame.updatePlaying / updateAI / updateScored).

JavaScript numbers are modelled as real numbers; scores, which the game
only ever sets to integer values, are modelled as naturals.  Calls to
Math.random() are modelled as explicit real-valued arguments (the draw,
always in [0,1)).  Rendering (draw methods) and DOM plumbing are out of
scope and not part of the state the embedded operations touch.
-/

noncomputable section

-- PONG_CONFIG from constants.ts.
namespace PONG_CONFIG

def PADDLE_WIDTH : ℝ := 10

def PADDLE_HEIGHT : ℝ := 40

def PADDLE_SPEED : ℝ := 5

def PADDLE_MARGIN : ℝ := 20

def BALL_SIZE : ℝ := 8

def BALL_SPEED : ℝ := 4

def WINNING_SCORE : ℕ := 11

def AI_REACTION_SPEED : ℝ := 0.85

def SCORE_DELAY : ℝ := 1000

end PONG_CONFIG

/-- The crossing signal returned by Ball.update ('left' | 'right'; null is
modelled by Option). -/
inductive Side where
  | left
  | right
deriving DecidableEq

/-- enum GameState from offline.ts. -/
inductive GameState where
  | WAITING
  | PLAYING
  | SCORED
  | GAME_OVER
deriving DecidableEq

/-- The bounds record returned by Paddle.getBounds. -/
structure Bounds where
  x : ℝ
  y : ℝ
  width : ℝ
  height : ℝ

/-- class Paddle (paddle.ts): mutable fields x, y, width, height, speed and
the private canvasHeight. -/
structure Paddle where
  x : ℝ
  y : ℝ
  width : ℝ
  height : ℝ
  speed : ℝ
  canvasHeight : ℝ

/-- The Paddle constructor: x given, sizes and speed from PONG_CONFIG,
y centered vertically. -/
def Paddle.init (x : ℝ) (canvasHeight : ℝ) : Paddle :=
  { x := x
    y := (canvasHeight - PONG_CONFIG.PADDLE_HEIGHT) / 2
    width := PONG_CONFIG.PADDLE_WIDTH
    height := PONG_CONFIG.PADDLE_HEIGHT
    speed := PONG_CONFIG.PADDLE_SPEED
    canvasHeight := canvasHeight }

/-- Paddle.moveUp: y := max(0, y - speed * (deltaTime / 16.67)). -/
def Paddle.moveUp (p : Paddle) (deltaTime : ℝ) : Paddle :=
  let movement := p.speed * (deltaTime / 16.67)
  { p with y := max 0 (p.y - movement) }

/-- Paddle.moveDown: y := min(canvasHeight - height, y + speed * (deltaTime / 16.67)). -/
def Paddle.moveDown (p : Paddle) (deltaTime : ℝ) : Paddle :=
  let movement := p.speed * (deltaTime / 16.67)
  { p with y := min (p.canvasHeight - p.height) (p.y + movement) }

/-- Paddle.moveToward: steer toward targetY, delegating to moveUp/moveDown
with effective time deltaTime * reactionSpeed, and only when the distance
from the paddle center exceeds one frame's movement. -/
def Paddle.moveToward (p : Paddle) (targetY deltaTime reactionSpeed : ℝ) : Paddle :=
  let paddleCenter := p.y + p.height / 2
  let diff := targetY - paddleCenter
  let movement := p.speed * reactionSpeed * (deltaTime / 16.67)
  if |diff| > movement then
    if diff > 0 then p.moveDown (deltaTime * reactionSpeed)
    else p.moveUp (deltaTime * reactionSpeed)
  else p

/-- Paddle.reset: re-center y. -/
def Paddle.reset (p : Paddle) : Paddle :=
  { p with y := (p.canvasHeight - p.height) / 2 }

/-- Paddle.getBounds. -/
def Paddle.getBounds (p : Paddle) : Bounds :=
  { x := p.x, y := p.y, width := p.width, height := p.height }

/-- class Ball (ball.ts): position, velocity, size and the private
canvasWidth / canvasHeight / baseSpeed. -/
structure Ball where
  x : ℝ
  y : ℝ
  vx : ℝ
  vy : ℝ
  size : ℝ
  canvasWidth : ℝ
  canvasHeight : ℝ
  baseSpeed : ℝ

/-- The Ball constructor: centered, zero velocity, size and base speed
from PONG_CONFIG. -/
def Ball.init (canvasWidth canvasHeight : ℝ) : Ball :=
  { x := canvasWidth / 2 - PONG_CONFIG.BALL_SIZE / 2
    y := canvasHeight / 2 - PONG_CONFIG.BALL_SIZE / 2
    vx := 0
    vy := 0
    size := PONG_CONFIG.BALL_SIZE
    canvasWidth := canvasWidth
    canvasHeight := canvasHeight
    baseSpeed := PONG_CONFIG.BALL_SPEED }

/-- Ball.launch: velocity of magnitude baseSpeed at angle
(rand - 0.5) * PI / 2, horizontal sign -1 if towardPlayer else +1.
rand models the Math.random() draw. -/
def Ball.launch (b : Ball) (towardPlayer : Bool) (rand : ℝ) : Ball :=
  let angle := (rand - 0.5) * Real.pi / 2
  let direction : ℝ := if towardPlayer then -1 else 1
  { b with vx := Real.cos angle * b.baseSpeed * direction
           vy := Real.sin angle * b.baseSpeed }

/-- Ball.update: integrate position with timeScale deltaTime / 16.67,
then resolve the top wall (y <= 0) and the bottom wall
(y + size >= canvasHeight) by clamping y and flipping vy, then check the
left (x + size < 0) and right (x > canvasWidth) edge crossings, in that
order.  Returns the updated ball together with the crossing signal. -/
def Ball.update (b : Ball) (deltaTime : ℝ) : Ball × Option Side :=
  let timeScale := deltaTime / 16.67
  let x1 := b.x + b.vx * timeScale
  let y1 := b.y + b.vy * timeScale
  let y2 := if y1 ≤ 0 then 0 else y1
  let vy2 := if y1 ≤ 0 then -b.vy else b.vy
  let y3 := if y2 + b.size ≥ b.canvasHeight then b.canvasHeight - b.size else y2
  let vy3 := if y2 + b.size ≥ b.canvasHeight then -vy2 else vy2
  let b1 := { b with x := x1, y := y3, vy := vy3 }
  if x1 + b.size < 0 then (b1, some Side.left)
  else if x1 > b.canvasWidth then (b1, some Side.right)
  else (b1, none)

/-- The overlap test of Ball.checkPaddleCollision, on the paddle's bounds. -/
def Ball.overlapsPaddle (b : Ball) (paddle : Paddle) : Prop :=
  b.x < (paddle.getBounds).x + (paddle.getBounds).width ∧
  b.x + b.size > (paddle.getBounds).x ∧
  b.y < (paddle.getBounds).y + (paddle.getBounds).height ∧
  b.y + b.size > (paddle.getBounds).y

/-- Ball.checkPaddleCollision: on overlap, bounce angle from the relative
hit position (max 60 degrees), horizontal direction away from the incoming
direction (vx > 0 gives -1 else 1), speed min(current * 1.05, base * 1.5),
and the ball pushed flush against the paddle edge on the side given by the
direction.  Returns the updated ball and whether a collision occurred. -/
def Ball.checkPaddleCollision (b : Ball) (paddle : Paddle) : Ball × Bool :=
  let bounds := paddle.getBounds
  if b.x < bounds.x + bounds.width ∧ b.x + b.size > bounds.x ∧
      b.y < bounds.y + bounds.height ∧ b.y + b.size > bounds.y then
    let paddleCenter := bounds.y + bounds.height / 2
    let ballCenter := b.y + b.size / 2
    let relativeIntersect := (ballCenter - paddleCenter) / (bounds.height / 2)
    let bounceAngle := relativeIntersect * (Real.pi / 3)
    let direction : ℝ := if b.vx > 0 then -1 else 1
    let currentSpeed := Real.sqrt (b.vx * b.vx + b.vy * b.vy)
    let newSpeed := min (currentSpeed * 1.05) (b.baseSpeed * 1.5)
    let x2 := if direction = -1 then bounds.x - b.size else bounds.x + bounds.width
    ({ b with vx := Real.cos bounceAngle * newSpeed * direction
              vy := Real.sin bounceAngle * newSpeed
              x := x2 }, true)
  else (b, false)

/-- Ball.reset: re-center, zero velocity. -/
def Ball.reset (b : Ball) : Ball :=
  { b with x := b.canvasWidth / 2 - b.size / 2
           y := b.canvasHeight / 2 - b.size / 2
           vx := 0
           vy := 0 }

/-- Ball.isMoving: either velocity component nonzero. -/
def Ball.isMoving (b : Ball) : Prop :=
  b.vx ≠ 0 ∨ b.vy ≠ 0

/-- The 'player' | 'ai' flash side of score_display.ts (null is modelled
by Option). -/
inductive FlashSide where
  | player
  | ai
deriving DecidableEq

/-- class ScoreDisplay (score_display.ts), restricted to its game state:
the two scores and the flash-feedback state.  The rendering context,
sprite position and canvas fields only feed the draw methods, which are
out of scope. -/
structure ScoreDisplay where
  playerScore : ℕ
  aiScore : ℕ
  flashTimer : ℝ
  flashDuration : ℝ
  isFlashing : Bool
  flashingSide : Option FlashSide

/-- The ScoreDisplay constructor: scores 0, flashTimer 0, flashDuration
150, not flashing. -/
def ScoreDisplay.init : ScoreDisplay :=
  { playerScore := 0
    aiScore := 0
    flashTimer := 0
    flashDuration := 150
    isFlashing := false
    flashingSide := none }

/-- ScoreDisplay.startFlash. -/
def ScoreDisplay.startFlash (sd : ScoreDisplay) (side : FlashSide) : ScoreDisplay :=
  { sd with isFlashing := true, flashingSide := some side, flashTimer := 0 }

/-- ScoreDisplay.setPlayerScore: update and flash only if the value
differs from the current score. -/
def ScoreDisplay.setPlayerScore (sd : ScoreDisplay) (score : ℕ) : ScoreDisplay :=
  if score ≠ sd.playerScore then
    ScoreDisplay.startFlash { sd with playerScore := score } FlashSide.player
  else sd

/-- ScoreDisplay.setAiScore: update and flash only if the value differs
from the current score. -/
def ScoreDisplay.setAiScore (sd : ScoreDisplay) (score : ℕ) : ScoreDisplay :=
  if score ≠ sd.aiScore then
    ScoreDisplay.startFlash { sd with aiScore := score } FlashSide.ai
  else sd

/-- ScoreDisplay.getPlayerScore. -/
def ScoreDisplay.getPlayerScore (sd : ScoreDisplay) : ℕ :=
  sd.playerScore

/-- ScoreDisplay.getAiScore. -/
def ScoreDisplay.getAiScore (sd : ScoreDisplay) : ℕ :=
  sd.aiScore

/-- ScoreDisplay.update: advance the flash timer and stop flashing once
it reaches flashDuration * 6. -/
def ScoreDisplay.update (sd : ScoreDisplay) (deltaTime : ℝ) : ScoreDisplay :=
  if sd.isFlashing then
    let t := sd.flashTimer + deltaTime
    if t ≥ sd.flashDuration * 6 then
      { sd with isFlashing := false, flashingSide := none, flashTimer := 0 }
    else { sd with flashTimer := t }
  else sd

/-- ScoreDisplay.reset: zero both scores, clear flash state. -/
def ScoreDisplay.reset (sd : ScoreDisplay) : ScoreDisplay :=
  { sd with playerScore := 0
            aiScore := 0
            isFlashing := false
            flashingSide := none
            flashTimer := 0 }

/-- One iteration of the bounce-prediction while loop body in
PongGame.updateAI: mirror a predicted y below 0, then mirror it above
the field height. -/
def reflectStep (height y : ℝ) : ℝ :=
  let y1 := if y < 0 then -y else y
  if y1 > height then 2 * height - y1 else y1

/-- Termination measure for that loop: each iteration either lands the
prediction inside [0, height] or shrinks its absolute value by
2 * height. -/
def reflectMeasure (height y : ℝ) : ℕ :=
  (if y < 0 ∨ y > height then 1 else 0) + 2 * Nat.floor (|y| / (2 * height))

/-- If the prediction is out of range but within 2 * height in absolute
value, one loop iteration lands it inside [0, height]. -/
theorem reflectStep_mem_Icc {height y : ℝ} (hH : 0 < height)
    (hy : y < 0 ∨ y > height) (hb : |y| ≤ 2 * height) :
    reflectStep height y ∈ Set.Icc 0 height := by
  unfold reflectStep
  rcases hy with hy | hy
  · rw [if_pos hy]
    rw [abs_of_neg hy] at hb
    by_cases h1 : -y > height
    · rw [if_pos h1]
      constructor <;> linarith
    · rw [if_neg h1]
      constructor <;> linarith
  · have hy0 : ¬ y < 0 := by linarith
    rw [if_neg hy0]
    rw [abs_of_nonneg (by linarith : (0:ℝ) ≤ y)] at hb
    rw [if_pos hy]
    constructor <;> linarith

/-- If the prediction exceeds 2 * height in absolute value, one loop
iteration produces 2 * height - |y|. -/
theorem reflectStep_of_two_height_lt {height y : ℝ} (hH : 0 < height)
    (hb : 2 * height < |y|) :
    reflectStep height y = 2 * height - |y| := by
  unfold reflectStep
  by_cases hy : y < 0
  · rw [if_pos hy, abs_of_neg hy]
    rw [abs_of_neg hy] at hb
    rw [if_pos (by linarith : -y > height)]
  · rw [if_neg hy]
    push_neg at hy
    rw [abs_of_nonneg hy] at hb ⊢
    rw [if_pos (by linarith : y > height)]

/-- The loop measure strictly decreases on every iteration taken. -/
theorem reflectMeasure_lt {height y : ℝ} (hH : 0 < height)
    (hy : y < 0 ∨ y > height) :
    reflectMeasure height (reflectStep height y) < reflectMeasure height y := by
  have h2H : (0:ℝ) < 2 * height := by linarith
  by_cases hb : |y| ≤ 2 * height
  · have hmem := reflectStep_mem_Icc hH hy hb
    obtain ⟨h0, h1⟩ := hmem
    have habs : |reflectStep height y| < 2 * height := by
      rw [abs_of_nonneg h0]; linarith
    have hguard : ¬ (reflectStep height y < 0 ∨ reflectStep height y > height) := by
      push_neg; exact ⟨h0, h1⟩
    unfold reflectMeasure
    rw [if_neg hguard, if_pos hy]
    have hfl : Nat.floor (|reflectStep height y| / (2 * height)) = 0 := by
      apply Nat.floor_eq_zero.mpr
      rw [div_lt_one h2H]; exact habs
    rw [hfl]
    omega
  · push_neg at hb
    have hstep := reflectStep_of_two_height_lt hH hb
    have habs : |reflectStep height y| = |y| - 2 * height := by
      rw [hstep, abs_of_nonpos (by linarith), neg_sub]
    have hone : 1 ≤ Nat.floor (|y| / (2 * height)) := by
      apply Nat.le_floor
      rw [Nat.cast_one, le_div_iff₀ h2H]; linarith
    have hsub : |reflectStep height y| / (2 * height) = |y| / (2 * height) - 1 := by
      rw [habs]; field_simp
    have hfl : Nat.floor (|reflectStep height y| / (2 * height)) =
        Nat.floor (|y| / (2 * height)) - 1 := by
      rw [hsub]
      have h1 := Nat.floor_sub_nat (|y| / (2 * height)) 1
      simp only [Nat.cast_one] at h1
      exact h1
    unfold reflectMeasure
    rw [if_pos hy, hfl]
    rcases le_or_lt (reflectStep height y) height with hle | hlt
    · rcases le_or_lt 0 (reflectStep height y) with h0 | h0
      · rw [if_neg (by push_neg; exact ⟨h0, hle⟩)]; omega
      · rw [if_pos (Or.inl h0)]; omega
    · rw [if_pos (Or.inr hlt)]; omega

/-- The mirror-reflection while loop of PongGame.updateAI:
while (predictedY < 0 or predictedY > height) apply reflectStep.  The
0 < height guard makes the recursion well founded; the game only runs it
on its positive field height. -/
def wallReflect (height : ℝ) (y : ℝ) : ℝ :=
  if h : 0 < height ∧ (y < 0 ∨ y > height) then
    wallReflect height (reflectStep height y)
  else y
termination_by reflectMeasure height y
decreasing_by exact reflectMeasure_lt h.1 h.2

/-- The same loop with an explicit iteration budget: loopIter height n y
runs at most n iterations of the loop body. -/
def loopIter (height : ℝ) : ℕ → ℝ → ℝ
  | 0, y => y
  | n + 1, y =>
    if y < 0 ∨ y > height then loopIter height n (reflectStep height y) else y

/-- Dimensions (dimensions.ts): the field width and height. -/
structure Dimensions where
  width : ℝ
  height : ℝ

/-- The game state of class PongGame (offline.ts) touched by
updatePlaying / updateAI / updateScored: the state machine tag, the
entities, the score-delay timer and the field dimensions.  The canvas,
input-set and scheduling fields feed only the excluded plumbing. -/
structure PongGame where
  state : GameState
  scoreDelayTimer : ℝ
  ball : Ball
  playerPaddle : Paddle
  aiPaddle : Paddle
  scoreDisplay : ScoreDisplay
  dimensions : Dimensions

/-- The predicted target y of PongGame.updateAI before the random offset:
linear extrapolation to the AI paddle's x, then the mirror-reflection
loop. -/
def aiPredictedY (ball : Ball) (aiPaddleX height : ℝ) : ℝ :=
  wallReflect height (ball.y + ball.vy * ((aiPaddleX - ball.x) / ball.vx))

/-- PongGame.updateAI: if the ball moves toward the AI paddle (vx > 0),
steer toward the reflected linear prediction plus a random offset
(rand - 0.5) * 20, with AI_REACTION_SPEED; otherwise steer toward the
field center at half that reaction speed.  rand models the
Math.random() draw. -/
def PongGame.updateAI (ball : Ball) (aiPaddle : Paddle) (dims : Dimensions)
    (deltaTime rand : ℝ) : Paddle :=
  if ball.vx > 0 then
    let predictedY := aiPredictedY ball aiPaddle.x dims.height
    let randomOffset := (rand - 0.5) * 20
    aiPaddle.moveToward (predictedY + randomOffset) deltaTime
      PONG_CONFIG.AI_REACTION_SPEED
  else
    aiPaddle.moveToward (dims.height / 2) deltaTime
      (PONG_CONFIG.AI_REACTION_SPEED * 0.5)

/-- PongGame.updatePlaying: move the AI paddle, advance the ball, run
both paddle collisions, then handle a scoring signal: increment the
scoring side's score, and either go to GAME_OVER (a score reached
WINNING_SCORE) or reset the ball, zero the delay timer and go to SCORED.
rand models the Math.random() draw inside updateAI. -/
def PongGame.updatePlaying (g : PongGame) (deltaTime rand : ℝ) : PongGame :=
  let aiPaddle := PongGame.updateAI g.ball g.aiPaddle g.dimensions deltaTime rand
  let upd := g.ball.update deltaTime
  let ball1 := (upd.1.checkPaddleCollision g.playerPaddle).1
  let ball2 := (ball1.checkPaddleCollision aiPaddle).1
  match upd.2 with
  | some side =>
    let sd :=
      match side with
      | Side.left => g.scoreDisplay.setAiScore (g.scoreDisplay.getAiScore + 1)
      | Side.right => g.scoreDisplay.setPlayerScore (g.scoreDisplay.getPlayerScore + 1)
    if sd.getPlayerScore ≥ PONG_CONFIG.WINNING_SCORE ∨
        sd.getAiScore ≥ PONG_CONFIG.WINNING_SCORE then
      { g with aiPaddle := aiPaddle, ball := ball2, scoreDisplay := sd
               state := GameState.GAME_OVER }
    else
      { g with aiPaddle := aiPaddle, ball := ball2.reset, scoreDisplay := sd
               state := GameState.SCORED, scoreDelayTimer := 0 }
  | none =>
    { g with aiPaddle := aiPaddle, ball := ball2 }

/-- PongGame.updateScored: accumulate the score-delay timer; once it
reaches SCORE_DELAY, go back to PLAYING and launch the ball toward a
random side.  randSide and randAngle model the two Math.random()
draws. -/
def PongGame.updateScored (g : PongGame) (deltaTime randSide randAngle : ℝ) : PongGame :=
  let timer := g.scoreDelayTimer + deltaTime
  if timer ≥ PONG_CONFIG.SCORE_DELAY then
    { g with scoreDelayTimer := timer, state := GameState.PLAYING
             ball := g.ball.launch (if randSide > 0.5 then true else false) randAngle }
  else
    { g with scoreDelayTimer := timer }

end

/-! ## Helper lemmas -/

theorem Paddle.moveUp_y_mem {p : Paddle} {dt : ℝ} (hdt : 0 ≤ dt)
    (hsp : 0 ≤ p.speed) (hy : p.y ∈ Set.Icc 0 (p.canvasHeight - p.height)) :
    (p.moveUp dt).y ∈ Set.Icc 0 (p.canvasHeight - p.height) := by
  obtain ⟨hy0, hy1⟩ := hy
  have hm : 0 ≤ p.speed * (dt / 16.67) :=
    mul_nonneg hsp (div_nonneg hdt (by norm_num))
  unfold Paddle.moveUp
  constructor
  · exact le_max_left 0 _
  · exact max_le (by linarith) (by linarith)

theorem Paddle.moveDown_y_mem {p : Paddle} {dt : ℝ} (hdt : 0 ≤ dt)
    (hsp : 0 ≤ p.speed) (hy : p.y ∈ Set.Icc 0 (p.canvasHeight - p.height)) :
    (p.moveDown dt).y ∈ Set.Icc 0 (p.canvasHeight - p.height) := by
  obtain ⟨hy0, hy1⟩ := hy
  have hm : 0 ≤ p.speed * (dt / 16.67) :=
    mul_nonneg hsp (div_nonneg hdt (by norm_num))
  unfold Paddle.moveDown
  constructor
  · exact le_min (by linarith) (by linarith)
  · exact min_le_left _ _

/-! ## Claims -/

/-- C2: for every deltaTime ≥ 0 (and nonnegative speed and reaction
speed, as the game's constants are) and every paddle whose y lies in
[0, canvasHeight - height], Paddle.moveUp and Paddle.moveDown leave y in
that range; the clamp is idempotent at each boundary; and
Paddle.moveToward preserves the same invariant, delegating to
moveUp/moveDown with effective time deltaTime * reactionSpeed. -/
theorem paddle_clamp_invariant (p : Paddle) (deltaTime targetY reactionSpeed : ℝ)
    (hdt : 0 ≤ deltaTime) (hsp : 0 ≤ p.speed) (hrs : 0 ≤ reactionSpeed)
    (hy : p.y ∈ Set.Icc 0 (p.canvasHeight - p.height)) :
    (p.moveUp deltaTime).y ∈ Set.Icc 0 (p.canvasHeight - p.height) ∧
    (p.moveDown deltaTime).y ∈ Set.Icc 0 (p.canvasHeight - p.height) ∧
    (p.y = 0 → (p.moveUp deltaTime).y = 0) ∧
    (p.y = p.canvasHeight - p.height →
      (p.moveDown deltaTime).y = p.canvasHeight - p.height) ∧
    (p.moveToward targetY deltaTime reactionSpeed).y ∈
      Set.Icc 0 (p.canvasHeight - p.height) := by
  have hm : 0 ≤ p.speed * (deltaTime / 16.67) :=
    mul_nonneg hsp (div_nonneg hdt (by norm_num))
  refine ⟨Paddle.moveUp_y_mem hdt hsp hy, Paddle.moveDown_y_mem hdt hsp hy, ?_, ?_, ?_⟩
  · intro h0
    unfold Paddle.moveUp
    simp only [h0, zero_sub]
    exact max_eq_left (by linarith)
  · intro h1
    unfold Paddle.moveDown
    simp only [h1]
    exact min_eq_left (by linarith)
  · unfold Paddle.moveToward
    dsimp only
    split
    · split
      · exact Paddle.moveDown_y_mem (mul_nonneg hdt hrs) hsp hy
      · exact Paddle.moveUp_y_mem (mul_nonneg hdt hrs) hsp hy
    · exact hy

/-- Witness for C2 at a concrete paddle and time step. -/
theorem paddle_clamp_invariant_witness :
    ((0:ℝ) ≤ 10 ∧ (0:ℝ) ≤ (Paddle.init 20 150).speed ∧ (0:ℝ) ≤ 0.85 ∧
      (Paddle.init 20 150).y ∈
        Set.Icc 0 ((Paddle.init 20 150).canvasHeight - (Paddle.init 20 150).height)) ∧
    ((Paddle.init 20 150).moveUp 10).y ∈
      Set.Icc 0 ((Paddle.init 20 150).canvasHeight - (Paddle.init 20 150).height) := by
  have h : (0:ℝ) ≤ 10 ∧ (0:ℝ) ≤ (Paddle.init 20 150).speed ∧ (0:ℝ) ≤ 0.85 ∧
      (Paddle.init 20 150).y ∈
        Set.Icc 0 ((Paddle.init 20 150).canvasHeight - (Paddle.init 20 150).height) := by
    refine ⟨by norm_num, ?_, by norm_num, ?_⟩
    · norm_num [Paddle.init, PONG_CONFIG.PADDLE_SPEED]
    · constructor <;>
        norm_num [Paddle.init, PONG_CONFIG.PADDLE_HEIGHT]
  exact ⟨h, (paddle_clamp_invariant (Paddle.init 20 150) 10 0 0.85
    h.1 h.2.1 h.2.2.1 h.2.2.2).1⟩

/-- C10: when the ball and paddle rectangles do not overlap,
checkPaddleCollision returns false and leaves the ball completely
unchanged. -/
theorem checkPaddleCollision_no_overlap (b : Ball) (paddle : Paddle)
    (h : ¬ b.overlapsPaddle paddle) :
    b.checkPaddleCollision paddle = (b, false) := by
  unfold Ball.checkPaddleCollision
  rw [if_neg]
  exact fun hc => h hc

/-- Witness for C10: a ball far from the paddle. -/
theorem checkPaddleCollision_no_overlap_witness :
    ¬ (Ball.init 600 150).overlapsPaddle (Paddle.init 570 150) ∧
    (Ball.init 600 150).checkPaddleCollision (Paddle.init 570 150) =
      (Ball.init 600 150, false) := by
  have h : ¬ (Ball.init 600 150).overlapsPaddle (Paddle.init 570 150) := by
    unfold Ball.overlapsPaddle Paddle.getBounds Ball.init Paddle.init
    norm_num [PONG_CONFIG.BALL_SIZE, PONG_CONFIG.PADDLE_WIDTH, PONG_CONFIG.PADDLE_HEIGHT]
  exact ⟨h, checkPaddleCollision_no_overlap _ _ h⟩

/-- C9: a ball with zero velocity that overlaps a paddle is reported as a
handled collision (true), repositioned flush against the paddle's right
edge (x = bounds.x + bounds.width, since the inferred direction is +1),
yet keeps zero velocity, because the new speed is
min(0 * 1.05, baseSpeed * 1.5) = 0. -/
theorem checkPaddleCollision_rest_ball (b : Ball) (paddle : Paddle)
    (hov : b.overlapsPaddle paddle) (hvx : b.vx = 0) (hvy : b.vy = 0)
    (hbase : 0 ≤ b.baseSpeed) :
    (b.checkPaddleCollision paddle).2 = true ∧
    (b.checkPaddleCollision paddle).1.x = paddle.x + paddle.width ∧
    (b.checkPaddleCollision paddle).1.vx = 0 ∧
    (b.checkPaddleCollision paddle).1.vy = 0 := by
  unfold Ball.checkPaddleCollision
  dsimp only
  have hc : b.x < (paddle.getBounds).x + (paddle.getBounds).width ∧
      b.x + b.size > (paddle.getBounds).x ∧
      b.y < (paddle.getBounds).y + (paddle.getBounds).height ∧
      b.y + b.size > (paddle.getBounds).y := hov
  rw [if_pos hc]
  have hdir : ¬ b.vx > 0 := by rw [hvx]; exact lt_irrefl 0
  have hspeed : Real.sqrt (b.vx * b.vx + b.vy * b.vy) = 0 := by
    rw [hvx, hvy]; simp
  simp only [hdir, if_false, hspeed, zero_mul, Paddle.getBounds]
  have hmin : min ((0:ℝ)) (b.baseSpeed * 1.5) = 0 := min_eq_left (by linarith)
  norm_num [hmin]
  exact ⟨Or.inr hbase, Or.inr hbase⟩

/-- A concrete motionless ball overlapping the player paddle, for the C9
witness. -/
def restBall : Ball :=
  { x := 25, y := 60, vx := 0, vy := 0, size := 8, canvasWidth := 600,
    canvasHeight := 150, baseSpeed := 4 }

/-- Witness for C9: the motionless ball inside the player paddle. -/
theorem checkPaddleCollision_rest_ball_witness :
    (restBall.overlapsPaddle (Paddle.init 20 150) ∧ restBall.vx = 0 ∧
      restBall.vy = 0 ∧ (0:ℝ) ≤ restBall.baseSpeed) ∧
    (restBall.checkPaddleCollision (Paddle.init 20 150)).1.vx = 0 := by
  have hov : restBall.overlapsPaddle (Paddle.init 20 150) := by
    unfold Ball.overlapsPaddle Paddle.getBounds Paddle.init restBall
    norm_num [PONG_CONFIG.PADDLE_WIDTH, PONG_CONFIG.PADDLE_HEIGHT]
  have h0 : restBall.vx = 0 := rfl
  have h1 : restBall.vy = 0 := rfl
  have h2 : (0:ℝ) ≤ restBall.baseSpeed := by norm_num [restBall]
  exact ⟨⟨hov, h0, h1, h2⟩,
    (checkPaddleCollision_rest_ball _ _ hov h0 h1 h2).2.2.1⟩

/-- C3: Ball.update signals left exactly when the integrated x satisfies
x + size < 0, right exactly when it satisfies x > canvasWidth (the two are
mutually exclusive for nonnegative size and field width), and none
otherwise; the returned ball always carries the wall-resolved y and vy
(the top/bottom reflection is applied before the crossing check and is
present in the result even when a crossing is signalled), x is the
integrated position, and vx, size and the configuration fields are
untouched.  Scores are not part of Ball at all: update returns only the
moved ball and the signal, and mutates no score. -/
theorem ball_update_crossing (b : Ball) (deltaTime : ℝ)
    (hs : 0 ≤ b.size) (hW : 0 ≤ b.canvasWidth) :
    ((b.update deltaTime).2 = some Side.left ↔
      b.x + b.vx * (deltaTime / 16.67) + b.size < 0) ∧
    ((b.update deltaTime).2 = some Side.right ↔
      b.x + b.vx * (deltaTime / 16.67) > b.canvasWidth) ∧
    ((b.update deltaTime).2 = none ↔
      ¬ (b.x + b.vx * (deltaTime / 16.67) + b.size < 0) ∧
      ¬ (b.x + b.vx * (deltaTime / 16.67) > b.canvasWidth)) ∧
    (b.update deltaTime).1.x = b.x + b.vx * (deltaTime / 16.67) ∧
    (b.update deltaTime).1.vx = b.vx ∧
    (b.update deltaTime).1.size = b.size ∧
    (b.update deltaTime).1.canvasWidth = b.canvasWidth ∧
    (b.update deltaTime).1.canvasHeight = b.canvasHeight ∧
    (b.update deltaTime).1.baseSpeed = b.baseSpeed ∧
    (b.update deltaTime).1.y =
      (if (if b.y + b.vy * (deltaTime / 16.67) ≤ 0 then (0:ℝ)
            else b.y + b.vy * (deltaTime / 16.67)) + b.size ≥ b.canvasHeight
        then b.canvasHeight - b.size
        else if b.y + b.vy * (deltaTime / 16.67) ≤ 0 then (0:ℝ)
          else b.y + b.vy * (deltaTime / 16.67)) ∧
    (b.update deltaTime).1.vy =
      (if (if b.y + b.vy * (deltaTime / 16.67) ≤ 0 then (0:ℝ)
            else b.y + b.vy * (deltaTime / 16.67)) + b.size ≥ b.canvasHeight
        then -(if b.y + b.vy * (deltaTime / 16.67) ≤ 0 then -b.vy else b.vy)
        else if b.y + b.vy * (deltaTime / 16.67) ≤ 0 then -b.vy else b.vy) := by
  unfold Ball.update
  dsimp only
  by_cases hL : b.x + b.vx * (deltaTime / 16.67) + b.size < 0
  · have hR : ¬ (b.x + b.vx * (deltaTime / 16.67) > b.canvasWidth) := by
      intro hR; linarith
    simp [hL, hR]
  · by_cases hR : b.x + b.vx * (deltaTime / 16.67) > b.canvasWidth
    · simp [hL, hR]
    · simp [hL, hR]

/-- Witness for C3 at the freshly constructed ball and a zero time step. -/
theorem ball_update_crossing_witness :
    ((0:ℝ) ≤ (Ball.init 600 150).size ∧ (0:ℝ) ≤ (Ball.init 600 150).canvasWidth) ∧
    (((Ball.init 600 150).update 0).2 = none ↔
      ¬ ((Ball.init 600 150).x + (Ball.init 600 150).vx * ((0:ℝ) / 16.67) +
          (Ball.init 600 150).size < 0) ∧
      ¬ ((Ball.init 600 150).x + (Ball.init 600 150).vx * ((0:ℝ) / 16.67) >
          (Ball.init 600 150).canvasWidth)) := by
  have h0 : (0:ℝ) ≤ (Ball.init 600 150).size := by
    norm_num [Ball.init, PONG_CONFIG.BALL_SIZE]
  have h1 : (0:ℝ) ≤ (Ball.init 600 150).canvasWidth := by
    norm_num [Ball.init]
  exact ⟨⟨h0, h1⟩, (ball_update_crossing (Ball.init 600 150) 0 h0 h1).2.2.1⟩

/-- The launch angle (rand - 0.5) * PI / 2 lies in [-PI/4, PI/4) for a
draw in [0, 1). -/
theorem launch_angle_bounds {rand : ℝ} (h0 : 0 ≤ rand) (h1 : rand < 1) :
    -(Real.pi / 4) ≤ (rand - 0.5) * Real.pi / 2 ∧
    (rand - 0.5) * Real.pi / 2 < Real.pi / 4 := by
  have hpi := Real.pi_pos
  constructor
  · nlinarith [mul_nonneg h0 hpi.le]
  · nlinarith [mul_pos (show (0:ℝ) < 1 - rand by linarith) hpi]

/-- On [-PI/4, PI/4] the sine is dominated by the cosine in absolute
value. -/
theorem abs_sin_le_cos {a : ℝ} (hl : -(Real.pi / 4) ≤ a) (hr : a ≤ Real.pi / 4) :
    |Real.sin a| ≤ Real.cos a := by
  have hpi := Real.pi_pos
  have habs : |a| ≤ Real.pi / 4 := abs_le.mpr ⟨by linarith, hr⟩
  have h1 : |Real.sin a| = Real.sin |a| := by
    rcases le_or_lt 0 a with h | h
    · rw [abs_of_nonneg h,
        abs_of_nonneg (Real.sin_nonneg_of_nonneg_of_le_pi h (by linarith))]
    · have hneg : Real.sin a < 0 :=
        Real.sin_neg_of_neg_of_neg_pi_lt h (by linarith)
      rw [abs_of_neg h, abs_of_neg hneg, Real.sin_neg]
  have h2 : Real.cos a = Real.cos |a| := by
    rcases abs_cases a with ⟨he, _⟩ | ⟨he, _⟩
    · rw [he]
    · rw [he, Real.cos_neg]
  rw [h1, h2, ← Real.sin_pi_div_two_sub]
  apply Real.sin_le_sin_of_le_of_le_pi_div_two
  · linarith [abs_nonneg a]
  · linarith [abs_nonneg a]
  · linarith

/-- C5: for every random draw in [0, 1) and both towardPlayer flags,
Ball.launch produces a velocity with vx^2 + vy^2 = baseSpeed^2 (magnitude
exactly baseSpeed) and |vy| ≤ |vx| (angle within 45 degrees of
horizontal), with vx negative when towardPlayer and positive
otherwise. -/
theorem ball_launch_props (b : Ball) (towardPlayer : Bool) (rand : ℝ)
    (h0 : 0 ≤ rand) (h1 : rand < 1) (hbase : 0 < b.baseSpeed) :
    (b.launch towardPlayer rand).vx ^ 2 + (b.launch towardPlayer rand).vy ^ 2 =
      b.baseSpeed ^ 2 ∧
    |(b.launch towardPlayer rand).vy| ≤ |(b.launch towardPlayer rand).vx| ∧
    (towardPlayer = true → (b.launch towardPlayer rand).vx < 0) ∧
    (towardPlayer = false → 0 < (b.launch towardPlayer rand).vx) := by
  have hb := launch_angle_bounds h0 h1
  unfold Ball.launch
  dsimp only
  set a := (rand - 0.5) * Real.pi / 2 with ha
  obtain ⟨hal, har⟩ := hb
  have hpi := Real.pi_pos
  have hcos : 0 < Real.cos a := Real.cos_pos_of_mem_Ioo ⟨by linarith, by linarith⟩
  have hsc : |Real.sin a| ≤ Real.cos a := abs_sin_le_cos hal (le_of_lt har)
  have hpy := Real.sin_sq_add_cos_sq a
  have habsle : |Real.sin a * b.baseSpeed| ≤ |Real.cos a * b.baseSpeed| := by
    rw [abs_mul, abs_mul, abs_of_pos hcos]
    exact mul_le_mul_of_nonneg_right hsc (abs_nonneg _)
  cases towardPlayer with
  | false =>
    simp only [ite_false, Bool.false_eq_true]
    refine ⟨?_, ?_, ?_, ?_⟩
    · linear_combination b.baseSpeed ^ 2 * hpy
    · calc |Real.sin a * b.baseSpeed| ≤ |Real.cos a * b.baseSpeed| := habsle
        _ = |Real.cos a * b.baseSpeed * 1| := by rw [mul_one]
    · intro hcontra; exact absurd hcontra (by simp)
    · intro _
      have := mul_pos hcos hbase
      linarith
  | true =>
    simp only [ite_true]
    refine ⟨?_, ?_, ?_, ?_⟩
    · linear_combination b.baseSpeed ^ 2 * hpy
    · calc |Real.sin a * b.baseSpeed| ≤ |Real.cos a * b.baseSpeed| := habsle
        _ = |Real.cos a * b.baseSpeed * (-1)| := by
            rw [abs_mul (Real.cos a * b.baseSpeed) (-1)]
            norm_num
    · intro _
      have := mul_pos hcos hbase
      nlinarith
    · intro hcontra; exact absurd hcontra (by simp)

/-- Witness for C5 at the freshly constructed ball and draw 0.25. -/
theorem ball_launch_props_witness :
    ((0:ℝ) ≤ 0.25 ∧ (0.25:ℝ) < 1 ∧ (0:ℝ) < (Ball.init 600 150).baseSpeed) ∧
    ((Ball.init 600 150).launch false 0.25).vx ^ 2 +
      ((Ball.init 600 150).launch false 0.25).vy ^ 2 =
      (Ball.init 600 150).baseSpeed ^ 2 := by
  have hb : (0:ℝ) < (Ball.init 600 150).baseSpeed := by
    norm_num [Ball.init, PONG_CONFIG.BALL_SPEED]
  exact ⟨⟨by norm_num, by norm_num, hb⟩,
    (ball_launch_props (Ball.init 600 150) false 0.25 (by norm_num) (by norm_num) hb).1⟩

/-- C4: on every detected overlap (for the game's geometry: positive
paddle height, nonnegative ball size at most half the paddle height, and
positive base speed) checkPaddleCollision reports true and sets the new
speed magnitude to exactly min(1.05 * currentSpeed, 1.5 * baseSpeed);
consequently, whenever the incoming speed is at most 1.5 * baseSpeed the
speed never decreases and stays capped at 1.5 * baseSpeed across any
sequence of collisions; and the outgoing horizontal velocity flips sign
relative to the incoming direction (vx > 0 becomes negative, vx < 0
becomes positive). -/
theorem checkPaddleCollision_speed (b : Ball) (paddle : Paddle)
    (hov : b.overlapsPaddle paddle) (hh : 0 < paddle.height)
    (hsz : 0 ≤ b.size) (hsh : 2 * b.size ≤ paddle.height)
    (hbase : 0 < b.baseSpeed) :
    (b.checkPaddleCollision paddle).2 = true ∧
    Real.sqrt
        ((b.checkPaddleCollision paddle).1.vx * (b.checkPaddleCollision paddle).1.vx +
          (b.checkPaddleCollision paddle).1.vy * (b.checkPaddleCollision paddle).1.vy) =
      min (Real.sqrt (b.vx * b.vx + b.vy * b.vy) * 1.05) (b.baseSpeed * 1.5) ∧
    (Real.sqrt (b.vx * b.vx + b.vy * b.vy) ≤ b.baseSpeed * 1.5 →
      Real.sqrt (b.vx * b.vx + b.vy * b.vy) ≤
        Real.sqrt
          ((b.checkPaddleCollision paddle).1.vx * (b.checkPaddleCollision paddle).1.vx +
            (b.checkPaddleCollision paddle).1.vy * (b.checkPaddleCollision paddle).1.vy) ∧
      Real.sqrt
          ((b.checkPaddleCollision paddle).1.vx * (b.checkPaddleCollision paddle).1.vx +
            (b.checkPaddleCollision paddle).1.vy * (b.checkPaddleCollision paddle).1.vy) ≤
        b.baseSpeed * 1.5) ∧
    (0 < b.vx → (b.checkPaddleCollision paddle).1.vx < 0) ∧
    (b.vx < 0 → 0 < (b.checkPaddleCollision paddle).1.vx) := by
  have hc : b.x < (paddle.getBounds).x + (paddle.getBounds).width ∧
      b.x + b.size > (paddle.getBounds).x ∧
      b.y < (paddle.getBounds).y + (paddle.getBounds).height ∧
      b.y + b.size > (paddle.getBounds).y := hov
  have h3 : b.y < paddle.y + paddle.height := hc.2.2.1
  have h4 : b.y + b.size > paddle.y := hc.2.2.2
  unfold Ball.checkPaddleCollision
  dsimp only
  rw [if_pos hc]
  simp only [Paddle.getBounds]
  have hpi := Real.pi_pos
  set s := Real.sqrt (b.vx * b.vx + b.vy * b.vy) with hsdef
  have hs0 : 0 ≤ s := Real.sqrt_nonneg _
  set ns := min (s * 1.05) (b.baseSpeed * 1.5) with hnsdef
  have hns0 : 0 ≤ ns := le_min (by nlinarith) (by nlinarith)
  set ri := (b.y + b.size / 2 - (paddle.y + paddle.height / 2)) / (paddle.height / 2)
    with hridef
  set θ := ri * (Real.pi / 3) with hθdef
  have hnum : |b.y + b.size / 2 - (paddle.y + paddle.height / 2)| < 3 / 4 * paddle.height := by
    rw [abs_lt]
    constructor <;> nlinarith
  have hri : |ri| < 3 / 2 := by
    rw [hridef, abs_div, abs_of_pos (by linarith : (0:ℝ) < paddle.height / 2),
      div_lt_iff₀ (by linarith : (0:ℝ) < paddle.height / 2)]
    nlinarith
  have hθabs : |θ| < Real.pi / 2 := by
    rw [hθdef, abs_mul, abs_of_pos (by positivity : (0:ℝ) < Real.pi / 3)]
    calc |ri| * (Real.pi / 3) < 3 / 2 * (Real.pi / 3) :=
          mul_lt_mul_of_pos_right hri (by positivity)
      _ = Real.pi / 2 := by ring
  obtain ⟨hθl, hθr⟩ := abs_lt.mp hθabs
  have hcosθ : 0 < Real.cos θ := Real.cos_pos_of_mem_Ioo ⟨by linarith, hθr⟩
  have hpy := Real.sin_sq_add_cos_sq θ
  have hmono : s ≤ b.baseSpeed * 1.5 → s ≤ ns ∧ ns ≤ b.baseSpeed * 1.5 :=
    fun hcap => ⟨le_min (by nlinarith) hcap, min_le_right _ _⟩
  by_cases hvx0 : b.vx > 0
  · simp only [if_pos hvx0]
    have hmag : Real.sqrt
        ((Real.cos θ * ns * -1) * (Real.cos θ * ns * -1) +
          Real.sin θ * ns * (Real.sin θ * ns)) = ns := by
      have he : (Real.cos θ * ns * -1) * (Real.cos θ * ns * -1) +
          Real.sin θ * ns * (Real.sin θ * ns) = ns ^ 2 := by
        linear_combination ns ^ 2 * hpy
      rw [he, Real.sqrt_sq hns0]
    have hvv : 0 < b.vx * b.vx + b.vy * b.vy :=
      add_pos_of_pos_of_nonneg (mul_pos hvx0 hvx0) (mul_self_nonneg b.vy)
    have hspos : 0 < s := by rw [hsdef]; exact Real.sqrt_pos.mpr hvv
    have hnspos : 0 < ns := by
      rw [hnsdef]
      exact lt_min (mul_pos hspos (by norm_num)) (mul_pos hbase (by norm_num))
    refine ⟨trivial, hmag, fun hcap => ?_, fun _ => ?_, fun hneg => absurd hneg (by linarith)⟩
    · rw [hmag]; exact hmono hcap
    · have hprod := mul_pos hcosθ hnspos
      have he2 : Real.cos θ * ns * -1 = -(Real.cos θ * ns) := by ring
      rw [he2]
      linarith
  · simp only [if_neg hvx0]
    have hmag : Real.sqrt
        ((Real.cos θ * ns * 1) * (Real.cos θ * ns * 1) +
          Real.sin θ * ns * (Real.sin θ * ns)) = ns := by
      have he : (Real.cos θ * ns * 1) * (Real.cos θ * ns * 1) +
          Real.sin θ * ns * (Real.sin θ * ns) = ns ^ 2 := by
        linear_combination ns ^ 2 * hpy
      rw [he, Real.sqrt_sq hns0]
    refine ⟨trivial, hmag, fun hcap => ?_, fun hpos => absurd hpos hvx0, fun hneg => ?_⟩
    · rw [hmag]; exact hmono hcap
    · have hvv : 0 < b.vx * b.vx + b.vy * b.vy :=
        add_pos_of_pos_of_nonneg (mul_pos_of_neg_of_neg hneg hneg) (mul_self_nonneg b.vy)
      have hspos : 0 < s := by rw [hsdef]; exact Real.sqrt_pos.mpr hvv
      have hnspos : 0 < ns := by
        rw [hnsdef]
        exact lt_min (mul_pos hspos (by norm_num)) (mul_pos hbase (by norm_num))
      have hprod := mul_pos hcosθ hnspos
      have he2 : Real.cos θ * ns * 1 = Real.cos θ * ns := by ring
      rw [he2]
      linarith

/-- A concrete leftward-moving ball overlapping the player paddle, for
the C4 witness. -/
def movingBall : Ball :=
  { x := 25, y := 60, vx := -2, vy := 1, size := 8, canvasWidth := 600,
    canvasHeight := 150, baseSpeed := 4 }

/-- Witness for C4: a leftward ball overlapping the player paddle. -/
theorem checkPaddleCollision_speed_witness :
    (movingBall.overlapsPaddle (Paddle.init 20 150) ∧
      0 < (Paddle.init 20 150).height ∧ (0:ℝ) ≤ movingBall.size ∧
      2 * movingBall.size ≤ (Paddle.init 20 150).height ∧
      0 < movingBall.baseSpeed ∧ movingBall.vx < 0) ∧
    0 < (movingBall.checkPaddleCollision (Paddle.init 20 150)).1.vx := by
  have hov : movingBall.overlapsPaddle (Paddle.init 20 150) := by
    unfold Ball.overlapsPaddle Paddle.getBounds Paddle.init movingBall
    norm_num [PONG_CONFIG.PADDLE_WIDTH, PONG_CONFIG.PADDLE_HEIGHT]
  have hh : 0 < (Paddle.init 20 150).height := by
    norm_num [Paddle.init, PONG_CONFIG.PADDLE_HEIGHT]
  have hsz : (0:ℝ) ≤ movingBall.size := by norm_num [movingBall]
  have hsh : 2 * movingBall.size ≤ (Paddle.init 20 150).height := by
    norm_num [movingBall, Paddle.init, PONG_CONFIG.PADDLE_HEIGHT]
  have hbase : 0 < movingBall.baseSpeed := by norm_num [movingBall]
  have hneg : movingBall.vx < 0 := by norm_num [movingBall]
  exact ⟨⟨hov, hh, hsz, hsh, hbase, hneg⟩,
    (checkPaddleCollision_speed movingBall (Paddle.init 20 150)
      hov hh hsz hsh hbase).2.2.2.2 hneg⟩

/-- setPlayerScore always stores exactly its argument. -/
theorem ScoreDisplay.setPlayerScore_playerScore (sd : ScoreDisplay) (n : ℕ) :
    (sd.setPlayerScore n).playerScore = n := by
  unfold ScoreDisplay.setPlayerScore ScoreDisplay.startFlash
  split
  · rfl
  · next h => push_neg at h; exact h.symm

/-- setPlayerScore leaves the AI score alone. -/
theorem ScoreDisplay.setPlayerScore_aiScore (sd : ScoreDisplay) (n : ℕ) :
    (sd.setPlayerScore n).aiScore = sd.aiScore := by
  unfold ScoreDisplay.setPlayerScore ScoreDisplay.startFlash
  split <;> rfl

/-- setAiScore always stores exactly its argument. -/
theorem ScoreDisplay.setAiScore_aiScore (sd : ScoreDisplay) (n : ℕ) :
    (sd.setAiScore n).aiScore = n := by
  unfold ScoreDisplay.setAiScore ScoreDisplay.startFlash
  split
  · rfl
  · next h => push_neg at h; exact h.symm

/-- setAiScore leaves the player score alone. -/
theorem ScoreDisplay.setAiScore_playerScore (sd : ScoreDisplay) (n : ℕ) :
    (sd.setAiScore n).playerScore = sd.playerScore := by
  unfold ScoreDisplay.setAiScore ScoreDisplay.startFlash
  split <;> rfl

/-- ScoreDisplay.update (the flash animation) never touches the scores. -/
theorem ScoreDisplay.update_scores (sd : ScoreDisplay) (deltaTime : ℝ) :
    (sd.update deltaTime).playerScore = sd.playerScore ∧
    (sd.update deltaTime).aiScore = sd.aiScore := by
  unfold ScoreDisplay.update
  dsimp only
  split
  · split <;> exact ⟨rfl, rfl⟩
  · exact ⟨rfl, rfl⟩

/-- updatePlaying either leaves the score display alone or bumps exactly
one score by one. -/
theorem updatePlaying_scoreDisplay_cases (g : PongGame) (deltaTime rand : ℝ) :
    (g.updatePlaying deltaTime rand).scoreDisplay = g.scoreDisplay ∨
    (g.updatePlaying deltaTime rand).scoreDisplay =
      g.scoreDisplay.setAiScore (g.scoreDisplay.aiScore + 1) ∨
    (g.updatePlaying deltaTime rand).scoreDisplay =
      g.scoreDisplay.setPlayerScore (g.scoreDisplay.playerScore + 1) := by
  unfold PongGame.updatePlaying
  dsimp only
  rcases hupd : (g.ball.update deltaTime).2 with _ | side
  · left; rfl
  · cases side
    · right; left
      dsimp only [ScoreDisplay.getAiScore, ScoreDisplay.getPlayerScore]
      split <;> rfl
    · right; right
      dsimp only [ScoreDisplay.getAiScore, ScoreDisplay.getPlayerScore]
      split <;> rfl

/-- C8 counterexample: a raw setter call with a smaller value does
decrease the reported score — set the player score to 1, then to 0:
getPlayerScore drops from 1 to 0, with no reset in between. -/
theorem scoreDisplay_setter_can_decrease :
    ((ScoreDisplay.init.setPlayerScore 1).setPlayerScore 0).getPlayerScore <
      (ScoreDisplay.init.setPlayerScore 1).getPlayerScore := by
  unfold ScoreDisplay.getPlayerScore
  rw [ScoreDisplay.setPlayerScore_playerScore, ScoreDisplay.setPlayerScore_playerScore]
  norm_num

/-- C8 amended: across the operations the game actually performs, scores
never decrease except through reset: a setter called with a value at
least the current score (as updatePlaying's current + 1 calls are) never
lowers that score and leaves the other one unchanged, the flash-animation
update never touches the scores, updatePlaying never lowers either score,
and reset sets both to zero. -/
theorem scoreDisplay_scores_monotone (sd : ScoreDisplay) (n : ℕ)
    (dt deltaTime rand : ℝ) (g : PongGame) :
    (sd.playerScore ≤ n → sd.playerScore ≤ (sd.setPlayerScore n).playerScore) ∧
    (sd.aiScore ≤ n → sd.aiScore ≤ (sd.setAiScore n).aiScore) ∧
    (sd.setPlayerScore n).aiScore = sd.aiScore ∧
    (sd.setAiScore n).playerScore = sd.playerScore ∧
    (sd.update dt).playerScore = sd.playerScore ∧
    (sd.update dt).aiScore = sd.aiScore ∧
    sd.reset.playerScore = 0 ∧
    sd.reset.aiScore = 0 ∧
    g.scoreDisplay.playerScore ≤ (g.updatePlaying deltaTime rand).scoreDisplay.playerScore ∧
    g.scoreDisplay.aiScore ≤ (g.updatePlaying deltaTime rand).scoreDisplay.aiScore := by
  refine ⟨?_, ?_, ScoreDisplay.setPlayerScore_aiScore sd n,
    ScoreDisplay.setAiScore_playerScore sd n, (ScoreDisplay.update_scores sd dt).1,
    (ScoreDisplay.update_scores sd dt).2, rfl, rfl, ?_, ?_⟩
  · intro h; rw [ScoreDisplay.setPlayerScore_playerScore]; exact h
  · intro h; rw [ScoreDisplay.setAiScore_aiScore]; exact h
  · rcases updatePlaying_scoreDisplay_cases g deltaTime rand with h | h | h
    · rw [h]
    · rw [h, ScoreDisplay.setAiScore_playerScore]
    · rw [h, ScoreDisplay.setPlayerScore_playerScore]
      exact Nat.le_succ _
  · rcases updatePlaying_scoreDisplay_cases g deltaTime rand with h | h | h
    · rw [h]
    · rw [h, ScoreDisplay.setAiScore_aiScore]
      exact Nat.le_succ _
    · rw [h, ScoreDisplay.setPlayerScore_aiScore]

/-- A concrete game state (entities as constructed for a 600 by 150
field), shared by the controller witnesses. -/
noncomputable def demoGame : PongGame :=
  { state := GameState.PLAYING
    scoreDelayTimer := 0
    ball := Ball.init 600 150
    playerPaddle := Paddle.init 20 150
    aiPaddle := Paddle.init 570 150
    scoreDisplay := ScoreDisplay.init
    dimensions := { width := 600, height := 150 } }

/-- Witness for the amended C8 at concrete inputs. -/
theorem scoreDisplay_scores_monotone_witness :
    ScoreDisplay.init.playerScore ≤ 1 ∧
    ScoreDisplay.init.playerScore ≤ (ScoreDisplay.init.setPlayerScore 1).playerScore := by
  have h : ScoreDisplay.init.playerScore ≤ 1 := by
    norm_num [ScoreDisplay.init]
  exact ⟨h, (scoreDisplay_scores_monotone ScoreDisplay.init 1 0 0 0 demoGame).1 h⟩

/-- C6: updateScored adds the frame's deltaTime to the score-delay
timer; while the accumulated timer is below SCORE_DELAY the state stays
SCORED and the ball is untouched (so a resting ball stays at rest), and
as soon as the accumulated timer reaches SCORE_DELAY the state becomes
PLAYING and the launched ball is moving (isMoving holds). -/
theorem updateScored_behavior (g : PongGame) (deltaTime randSide randAngle : ℝ)
    (hstate : g.state = GameState.SCORED)
    (h0 : 0 ≤ randAngle) (h1 : randAngle < 1) (hbase : 0 < g.ball.baseSpeed) :
    (g.updateScored deltaTime randSide randAngle).scoreDelayTimer =
      g.scoreDelayTimer + deltaTime ∧
    (g.scoreDelayTimer + deltaTime < PONG_CONFIG.SCORE_DELAY →
      (g.updateScored deltaTime randSide randAngle).state = GameState.SCORED ∧
      (g.updateScored deltaTime randSide randAngle).ball = g.ball) ∧
    (PONG_CONFIG.SCORE_DELAY ≤ g.scoreDelayTimer + deltaTime →
      (g.updateScored deltaTime randSide randAngle).state = GameState.PLAYING ∧
      (g.updateScored deltaTime randSide randAngle).ball.isMoving) := by
  unfold PongGame.updateScored
  dsimp only
  by_cases ht : g.scoreDelayTimer + deltaTime ≥ PONG_CONFIG.SCORE_DELAY
  · rw [if_pos ht]
    refine ⟨rfl, fun hlow => absurd ht (by linarith), fun _ => ⟨rfl, ?_⟩⟩
    unfold Ball.launch Ball.isMoving
    dsimp only
    left
    obtain ⟨hal, har⟩ := launch_angle_bounds h0 h1
    have hpi := Real.pi_pos
    have hcos : 0 < Real.cos ((randAngle - 0.5) * Real.pi / 2) :=
      Real.cos_pos_of_mem_Ioo ⟨by linarith, by linarith⟩
    by_cases hrs : randSide > (0.5:ℝ)
    · simp only [if_pos hrs, ite_true]
      intro heq
      linarith [mul_pos hcos hbase]
    · simp only [if_neg hrs, ite_false, Bool.false_eq_true]
      intro heq
      linarith [mul_pos hcos hbase]
  · rw [if_neg ht]
    exact ⟨rfl, fun _ => ⟨hstate, rfl⟩, fun hhigh => absurd hhigh ht⟩

/-- Witness for C6: the demo game in state SCORED, after a full second. -/
theorem updateScored_behavior_witness :
    (({ demoGame with state := GameState.SCORED } : PongGame).state =
        GameState.SCORED ∧
      (0:ℝ) ≤ 0.25 ∧ (0.25:ℝ) < 1 ∧
      0 < ({ demoGame with state := GameState.SCORED } : PongGame).ball.baseSpeed ∧
      PONG_CONFIG.SCORE_DELAY ≤
        ({ demoGame with state := GameState.SCORED } : PongGame).scoreDelayTimer + 1000) ∧
    (({ demoGame with state := GameState.SCORED } : PongGame).updateScored
        1000 0.25 0.25).state = GameState.PLAYING := by
  have hstate : ({ demoGame with state := GameState.SCORED } : PongGame).state =
      GameState.SCORED := rfl
  have hbase : 0 < ({ demoGame with state := GameState.SCORED } : PongGame).ball.baseSpeed := by
    norm_num [demoGame, Ball.init, PONG_CONFIG.BALL_SPEED]
  have ht : PONG_CONFIG.SCORE_DELAY ≤
      ({ demoGame with state := GameState.SCORED } : PongGame).scoreDelayTimer + 1000 := by
    norm_num [demoGame, PONG_CONFIG.SCORE_DELAY]
  exact ⟨⟨hstate, by norm_num, by norm_num, hbase, ht⟩,
    ((updateScored_behavior _ 1000 0.25 0.25 hstate (by norm_num) (by norm_num)
      hbase).2.2 ht).1⟩

/-- Ball.update never changes the ball's size or field dimensions. -/
theorem Ball.update_keeps (b : Ball) (deltaTime : ℝ) :
    (b.update deltaTime).1.size = b.size ∧
    (b.update deltaTime).1.canvasWidth = b.canvasWidth ∧
    (b.update deltaTime).1.canvasHeight = b.canvasHeight := by
  unfold Ball.update
  dsimp only
  split
  · exact ⟨rfl, rfl, rfl⟩
  · split <;> exact ⟨rfl, rfl, rfl⟩

/-- Ball.checkPaddleCollision never changes the ball's size or field
dimensions. -/
theorem Ball.checkPaddleCollision_keeps (b : Ball) (paddle : Paddle) :
    (b.checkPaddleCollision paddle).1.size = b.size ∧
    (b.checkPaddleCollision paddle).1.canvasWidth = b.canvasWidth ∧
    (b.checkPaddleCollision paddle).1.canvasHeight = b.canvasHeight := by
  unfold Ball.checkPaddleCollision
  dsimp only
  split <;> exact ⟨rfl, rfl, rfl⟩

/-- C1: in PLAYING, when Ball.update signals a crossing, updatePlaying
increments exactly the scoring side's score by one (left increments the
AI score, right the player score); when either post-increment score is at
least WINNING_SCORE (= 11) the state becomes GAME_OVER, and otherwise
the state becomes SCORED, the score-delay timer is set to 0, and the
ball is reset to the field center with zero velocity. -/
theorem updatePlaying_scoring (g : PongGame) (deltaTime rand : ℝ) (side : Side)
    (hscored : (g.ball.update deltaTime).2 = some side) :
    (side = Side.left →
      (g.updatePlaying deltaTime rand).scoreDisplay.aiScore =
        g.scoreDisplay.aiScore + 1 ∧
      (g.updatePlaying deltaTime rand).scoreDisplay.playerScore =
        g.scoreDisplay.playerScore) ∧
    (side = Side.right →
      (g.updatePlaying deltaTime rand).scoreDisplay.playerScore =
        g.scoreDisplay.playerScore + 1 ∧
      (g.updatePlaying deltaTime rand).scoreDisplay.aiScore =
        g.scoreDisplay.aiScore) ∧
    ((PONG_CONFIG.WINNING_SCORE ≤
        (g.updatePlaying deltaTime rand).scoreDisplay.playerScore ∨
      PONG_CONFIG.WINNING_SCORE ≤
        (g.updatePlaying deltaTime rand).scoreDisplay.aiScore) →
      (g.updatePlaying deltaTime rand).state = GameState.GAME_OVER) ∧
    ((g.updatePlaying deltaTime rand).scoreDisplay.playerScore <
        PONG_CONFIG.WINNING_SCORE ∧
      (g.updatePlaying deltaTime rand).scoreDisplay.aiScore <
        PONG_CONFIG.WINNING_SCORE →
      (g.updatePlaying deltaTime rand).state = GameState.SCORED ∧
      (g.updatePlaying deltaTime rand).scoreDelayTimer = 0 ∧
      (g.updatePlaying deltaTime rand).ball.x =
        g.ball.canvasWidth / 2 - g.ball.size / 2 ∧
      (g.updatePlaying deltaTime rand).ball.y =
        g.ball.canvasHeight / 2 - g.ball.size / 2 ∧
      (g.updatePlaying deltaTime rand).ball.vx = 0 ∧
      (g.updatePlaying deltaTime rand).ball.vy = 0) ∧
    PONG_CONFIG.WINNING_SCORE = 11 := by
  unfold PongGame.updatePlaying
  dsimp only
  rw [hscored]
  cases side with
  | left =>
    dsimp only [ScoreDisplay.getAiScore, ScoreDisplay.getPlayerScore]
    by_cases hwin :
        (g.scoreDisplay.setAiScore (g.scoreDisplay.aiScore + 1)).playerScore ≥
          PONG_CONFIG.WINNING_SCORE ∨
        (g.scoreDisplay.setAiScore (g.scoreDisplay.aiScore + 1)).aiScore ≥
          PONG_CONFIG.WINNING_SCORE
    · rw [if_pos hwin]
      dsimp only
      refine ⟨fun _ => ⟨ScoreDisplay.setAiScore_aiScore _ _,
        ScoreDisplay.setAiScore_playerScore _ _⟩,
        fun hcontra => absurd hcontra (by simp), fun _ => rfl, ?_, rfl⟩
      intro hlt
      exact absurd hwin (by omega)
    · rw [if_neg hwin]
      dsimp only
      refine ⟨fun _ => ⟨ScoreDisplay.setAiScore_aiScore _ _,
        ScoreDisplay.setAiScore_playerScore _ _⟩,
        fun hcontra => absurd hcontra (by simp), ?_, fun _ => ?_, rfl⟩
      · intro hge
        exact absurd hge (by omega)
      · refine ⟨rfl, rfl, ?_, ?_, rfl, rfl⟩
        · dsimp only [Ball.reset]
          rw [(Ball.checkPaddleCollision_keeps _ _).2.1,
            (Ball.checkPaddleCollision_keeps _ _).2.1, (Ball.update_keeps _ _).2.1,
            (Ball.checkPaddleCollision_keeps _ _).1,
            (Ball.checkPaddleCollision_keeps _ _).1, (Ball.update_keeps _ _).1]
        · dsimp only [Ball.reset]
          rw [(Ball.checkPaddleCollision_keeps _ _).2.2,
            (Ball.checkPaddleCollision_keeps _ _).2.2, (Ball.update_keeps _ _).2.2,
            (Ball.checkPaddleCollision_keeps _ _).1,
            (Ball.checkPaddleCollision_keeps _ _).1, (Ball.update_keeps _ _).1]
  | right =>
    dsimp only [ScoreDisplay.getAiScore, ScoreDisplay.getPlayerScore]
    by_cases hwin :
        (g.scoreDisplay.setPlayerScore (g.scoreDisplay.playerScore + 1)).playerScore ≥
          PONG_CONFIG.WINNING_SCORE ∨
        (g.scoreDisplay.setPlayerScore (g.scoreDisplay.playerScore + 1)).aiScore ≥
          PONG_CONFIG.WINNING_SCORE
    · rw [if_pos hwin]
      dsimp only
      refine ⟨fun hcontra => absurd hcontra (by simp),
        fun _ => ⟨ScoreDisplay.setPlayerScore_playerScore _ _,
          ScoreDisplay.setPlayerScore_aiScore _ _⟩, fun _ => rfl, ?_, rfl⟩
      intro hlt
      exact absurd hwin (by omega)
    · rw [if_neg hwin]
      dsimp only
      refine ⟨fun hcontra => absurd hcontra (by simp),
        fun _ => ⟨ScoreDisplay.setPlayerScore_playerScore _ _,
          ScoreDisplay.setPlayerScore_aiScore _ _⟩, ?_, fun _ => ?_, rfl⟩
      · intro hge
        exact absurd hge (by omega)
      · refine ⟨rfl, rfl, ?_, ?_, rfl, rfl⟩
        · dsimp only [Ball.reset]
          rw [(Ball.checkPaddleCollision_keeps _ _).2.1,
            (Ball.checkPaddleCollision_keeps _ _).2.1, (Ball.update_keeps _ _).2.1,
            (Ball.checkPaddleCollision_keeps _ _).1,
            (Ball.checkPaddleCollision_keeps _ _).1, (Ball.update_keeps _ _).1]
        · dsimp only [Ball.reset]
          rw [(Ball.checkPaddleCollision_keeps _ _).2.2,
            (Ball.checkPaddleCollision_keeps _ _).2.2, (Ball.update_keeps _ _).2.2,
            (Ball.checkPaddleCollision_keeps _ _).1,
            (Ball.checkPaddleCollision_keeps _ _).1, (Ball.update_keeps _ _).1]

/-- A concrete ball fully past the left edge, for the C1 witness. -/
def leftCrossBall : Ball :=
  { x := -100, y := 75, vx := 0, vy := 0, size := 8, canvasWidth := 600,
    canvasHeight := 150, baseSpeed := 4 }

/-- Witness for C1: the demo game whose ball just crossed the left edge. -/
theorem updatePlaying_scoring_witness :
    ((({ demoGame with ball := leftCrossBall } : PongGame).ball.update 0).2 =
      some Side.left) ∧
    (({ demoGame with ball := leftCrossBall } : PongGame).updatePlaying
        0 0.25).scoreDisplay.aiScore =
      ({ demoGame with ball := leftCrossBall } : PongGame).scoreDisplay.aiScore + 1 := by
  have hscored : ((({ demoGame with ball := leftCrossBall } : PongGame).ball.update 0).2 =
      some Side.left) := by
    show ((leftCrossBall.update 0).2 = some Side.left)
    unfold Ball.update leftCrossBall
    norm_num
  exact ⟨hscored, ((updatePlaying_scoring _ 0 0.25 Side.left hscored).1 rfl).1⟩

/-- For a positive field height the reflection loop's result always lands
in [0, height] (strong induction on the loop measure). -/
theorem wallReflect_mem_Icc (height : ℝ) (hH : 0 < height) :
    ∀ n y, reflectMeasure height y = n →
      wallReflect height y ∈ Set.Icc 0 height := by
  intro n
  induction n using Nat.strong_induction_on with
  | _ n ih =>
    intro y hm
    rw [wallReflect]
    split
    · next hcond =>
      exact ih _ (hm ▸ reflectMeasure_lt hcond.1 hcond.2) _ rfl
    · next hcond =>
      push_neg at hcond
      exact Set.mem_Icc.mpr (hcond hH)

/-- With enough fuel (the loop measure suffices) the fuelled loop and the
well-founded loop agree: the while loop exits after finitely many
iterations. -/
theorem loopIter_eq_wallReflect (height : ℝ) (hH : 0 < height) :
    ∀ n y, reflectMeasure height y ≤ n →
      loopIter height n y = wallReflect height y := by
  intro n
  induction n with
  | zero =>
    intro y hm
    have hguard : ¬ (y < 0 ∨ y > height) := by
      intro hg
      have h1 : reflectMeasure height y = 0 := Nat.le_zero.mp hm
      unfold reflectMeasure at h1
      rw [if_pos hg] at h1
      omega
    rw [wallReflect, dif_neg]
    · rfl
    · intro hc
      exact hguard hc.2
  | succ n ih =>
    intro y hm
    by_cases hg : y < 0 ∨ y > height
    · have hstep := reflectMeasure_lt hH hg
      have hle : reflectMeasure height (reflectStep height y) ≤ n := by omega
      rw [wallReflect, dif_pos ⟨hH, hg⟩, ← ih _ hle]
      simp only [loopIter]
      rw [if_pos hg]
    · rw [wallReflect, dif_neg]
      · simp only [loopIter]
        rw [if_neg hg]
      · intro hc
        exact hg hc.2

/-- C7: for every ball heading toward the AI paddle (vx > 0) over a
positive field height, the mirror-reflection loop of updateAI terminates
— the well-founded result is reached by the fuelled loop after finitely
many iterations of the loop body — and the predicted target y it
produces lies within [0, height] before the random offset is added. -/
theorem updateAI_prediction_bounds (ball : Ball) (aiPaddleX height : ℝ)
    (hH : 0 < height) (hvx : 0 < ball.vx) :
    aiPredictedY ball aiPaddleX height ∈ Set.Icc 0 height ∧
    ∃ n, aiPredictedY ball aiPaddleX height =
      loopIter height n (ball.y + ball.vy * ((aiPaddleX - ball.x) / ball.vx)) := by
  constructor
  · exact wallReflect_mem_Icc height hH _ _ rfl
  · exact ⟨reflectMeasure height (ball.y + ball.vy * ((aiPaddleX - ball.x) / ball.vx)),
      (loopIter_eq_wallReflect height hH _ _ le_rfl).symm⟩

/-- A concrete ball heading toward the AI paddle whose linear prediction
overshoots the field many times over, for the C7 witness. -/
def aiTestBall : Ball :=
  { x := 100, y := 300, vx := 2, vy := 5, size := 8, canvasWidth := 600,
    canvasHeight := 150, baseSpeed := 4 }

/-- Witness for C7 at the concrete ball and the demo field height. -/
theorem updateAI_prediction_bounds_witness :
    ((0:ℝ) < 150 ∧ 0 < aiTestBall.vx) ∧
    aiPredictedY aiTestBall 570 150 ∈ Set.Icc (0:ℝ) 150 := by
  have h1 : (0:ℝ) < 150 := by norm_num
  have h2 : (0:ℝ) < aiTestBall.vx := by norm_num [aiTestBall]
  exact ⟨⟨h1, h2⟩, (updateAI_prediction_bounds aiTestBall 570 150 h1 h2).1⟩
